import Mathlib

/-!
Verification development for the nl80211 generic-netlink client
(`socket.rs`, `async_socket.rs`, `interface.rs`, `station.rs`).

The pure protocol logic is embedded shallowly:

* attribute payloads are byte lists (`List Nat`, each byte taken mod 256);
* the TLV attribute decoder and the numeric attribute enums live in
  `attr.rs`, which is not present under `src/`; they are modelled from the
  spec (§4.4, §6) with numeric tag values corroborated by the in-repo test
  fixtures of `station.rs` and `interface.rs`;
* the dump loops of `Socket` and `AsyncSocket` are embedded as pure
  functions over the list of response messages delivered by the kernel
  (request construction and the raw socket transport are out of scope per
  spec §1); a Rust `panic!`/`unwrap` failure is the `fatal` outcome, a
  propagated `Err` is `err`.
-/

namespace NeliWifi

/-- Little-endian interpretation of a byte list as an unsigned integer
(each entry taken mod 256). -/
def leNat : List Nat → Nat
  | [] => 0
  | b :: rest => b % 256 + 256 * leNat rest

/-- Fixed-width unsigned scalar extraction (`get_payload_as` for `u32`/`u64`):
succeeds only when the payload has exactly the expected width `w`, returning
the little-endian value. -/
def decodeU (w : Nat) (p : List Nat) : Option Nat :=
  if p.length = w then some (leNat p) else none

/-- Signed 8-bit extraction (`get_payload_as::<i8>`): exactly one byte,
interpreted as a two's-complement signed value. -/
def decodeI8 (p : List Nat) : Option Int :=
  match p with
  | [b] => some (if b % 256 < 128 then (b % 256 : Int) else (b % 256 : Int) - 256)
  | _ => none

/-- Modelled from the spec: the TLV attribute decoder of `attr.rs`/the netlink
attribute layer is not under `src/`.  Per §4.4 and §6 each attribute is
`{length (u16 le, includes its own 4-byte header), type (u16 le, two top bits
reserved for the nested/network-order markers), payload, padding to 4-byte
alignment}`; decoding fails when a header would index past the available
bytes or declares an inconsistent length.  Returns the ordered list of
(type tag, payload bytes) pairs. -/
def parseAttrsGo : Nat → List Nat → Option (List (Nat × List Nat))
  | _, [] => some []
  | fuel + 1, b0 :: b1 :: b2 :: b3 :: rest =>
    let len := b0 % 256 + 256 * (b1 % 256)
    let ty := (b2 % 256 + 256 * (b3 % 256)) % 16384
    if 4 ≤ len ∧ len - 4 ≤ rest.length then
      match parseAttrsGo fuel (rest.drop (((len + 3) / 4) * 4 - 4)) with
      | some attrs => some ((ty, rest.take (len - 4)) :: attrs)
      | none => none
    else none
  | _, _ => none

/-- Entry point of the TLV decoder.  The fuel argument of `parseAttrsGo`
only bounds the recursion structurally; every parsed attribute consumes at
least four bytes, so a fuel equal to the byte count can never run out. -/
def parseAttrs (bytes : List Nat) : Option (List (Nat × List Nat)) :=
  parseAttrsGo bytes.length bytes

/-- Modelled from the spec: the top-level nl80211 attribute enumeration of
`attr.rs` is not under `src/`.  Only the constructors dispatched on by the
mappers in `interface.rs`/`station.rs` (plus the BSS container of §4.5) are
named; `AttrOther` stands for every other variant of the closed enumeration. -/
inductive Nl80211Attr where
  | AttrIfindex
  | AttrSsid
  | AttrMac
  | AttrIfname
  | AttrWiphyFreq
  | AttrChannelWidth
  | AttrWiphyTxPowerLevel
  | AttrWiphy
  | AttrWdev
  | AttrIftype
  | AttrStaInfo
  | AttrBss
  | AttrOther (n : Nat)
  deriving DecidableEq, Repr

/-- Modelled from the spec: the station-info sub-attribute enumeration of
`attr.rs` is not under `src/`.  The named constructors are exactly those the
`station.rs` mapper dispatches on; `StaInfoOther` stands for everything the
mapper's catch-all arm skips. -/
inductive Nl80211StaInfo where
  | StaInfoInactiveTime
  | StaInfoRxBytes64
  | StaInfoRxBytes
  | StaInfoRxPackets
  | StaInfoTxBytes64
  | StaInfoTxBytes
  | StaInfoTxPackets
  | StaInfoTxRetries
  | StaInfoTxFailed
  | StaInfoBeaconLoss
  | StaInfoBeaconRx
  | StaInfoRxDropMisc
  | StaInfoSignal
  | StaInfoSignalAvg
  | StaInfoBeaconSignalAvg
  | StaInfoTOffset
  | StaInfoTxBitrate
  | StaInfoTxDuration
  | StaInfoRxBitrate
  | StaInfoRxDuration
  | StaInfoAckSignal
  | StaInfoAckSignalAvg
  | StaInfoConnectedTime
  | StaInfoOther (n : Nat)
  deriving DecidableEq, Repr

/-- Modelled from the spec: numeric values of the station-info tags, taken
from the expectations of the in-repo test fixture in `station.rs` (e.g. tag 7
with payload byte 218 yields `signal`, tag 16 yields `connected_time`);
numbers the fixture does not corroborate map to the unrecognized
constructor. -/
def staInfoOfNat : Nat → Nl80211StaInfo
  | 7 => .StaInfoSignal
  | 8 => .StaInfoTxBitrate
  | 9 => .StaInfoRxPackets
  | 10 => .StaInfoTxPackets
  | 11 => .StaInfoTxRetries
  | 12 => .StaInfoTxFailed
  | 13 => .StaInfoSignalAvg
  | 14 => .StaInfoRxBitrate
  | 16 => .StaInfoConnectedTime
  | 18 => .StaInfoBeaconLoss
  | n => .StaInfoOther n

/-- Modelled from the spec: the rate-info sub-attribute enumeration of
`attr.rs` is not under `src/`.  `station.rs` reads only the 32-bit bitrate;
the legacy 16-bit bitrate and the MCS index appear in the fixture but are
never read. -/
inductive Nl80211RateInfo where
  | RateInfoBitrate
  | RateInfoMcs
  | RateInfoBitrate32
  | RateInfoOther (n : Nat)
  deriving DecidableEq, Repr

/-- Modelled from the spec: numeric values of the rate-info tags, corroborated
by the `station.rs` test fixture (sub-tag 5 carries the 32-bit bitrate that
the expected station exposes). -/
def rateInfoOfNat : Nat → Nl80211RateInfo
  | 1 => .RateInfoBitrate
  | 2 => .RateInfoMcs
  | 5 => .RateInfoBitrate32
  | n => .RateInfoOther n

/-- A decoded netlink attribute: semantic type tag plus raw byte payload
(`Nlattr` with its `nla_type.nla_type` and `nla_payload`). -/
structure Nlattr (T : Type) where
  nla_type : T
  nla_payload : List Nat
  deriving DecidableEq, Repr

/-- A top-level nl80211 attribute, as handed to the domain mappers. -/
abbrev TopAttr := Nlattr Nl80211Attr

/-- A station-info sub-attribute. -/
abbrev StaAttr := Nlattr Nl80211StaInfo

/-- Outcome of a domain mapper: `ok` a record, `err` a propagated decode
error (Rust `?`), or `fatal` a panic (Rust `unwrap`/`panic!`). -/
inductive MapResult (α : Type) where
  | ok (a : α)
  | err
  | fatal
  deriving DecidableEq, Repr

/-- `AttrHandle::get_attribute`: first attribute of the given semantic type,
if any. -/
def getAttribute {T : Type} [DecidableEq T] (attrs : List (Nlattr T)) (t : T) :
    Option (Nlattr T) :=
  attrs.find? (fun a => a.nla_type = t)

/-- The `Station` record of `station.rs` (all fields optional; numeric
fields carry the decoded little-endian value, signed fields an `Int`). -/
structure Station where
  bssid : Option (List Nat)
  inactive_time : Option Nat
  rx_bytes : Option Nat
  rx_packets : Option Nat
  tx_bytes : Option Nat
  tx_packets : Option Nat
  tx_retries : Option Nat
  tx_failed : Option Nat
  beacon_rx : Option Nat
  beacon_loss : Option Nat
  rx_drop_misc : Option Nat
  signal : Option Int
  average_signal : Option Int
  beacon_signal_avg : Option Int
  t_offset : Option Nat
  tx_bitrate : Option Nat
  rx_bitrate : Option Nat
  rx_duration : Option Nat
  tx_duration : Option Nat
  ack_signal : Option Int
  ack_signal_avg : Option Int
  connected_time : Option Nat
  deriving DecidableEq, Repr

/-- `Station::default()`: the all-absent record. -/
def Station.default : Station :=
  ⟨none, none, none, none, none, none, none, none, none, none, none,
   none, none, none, none, none, none, none, none, none, none, none⟩

/-- One arm of the `match` in the station-info loop of `station.rs`
(lines 56–129): dispatch on the sub-attribute's type, decode its payload at
the statically-known width, and update the record.  The 32-bit legacy byte
counters are consulted only when the 64-bit field is still absent; the
bitrate arms re-parse the payload as a rate-info tree and read only the
32-bit bitrate sub-field.  A failed width-checked decode propagates as `err`
(Rust `?`); types outside the dispatch table fall to the catch-all and leave
the record untouched. -/
def staStep (res : Station) (attr : StaAttr) : MapResult Station :=
  match attr.nla_type with
  | .StaInfoInactiveTime =>
    match decodeU 4 attr.nla_payload with
    | some v => .ok {res with inactive_time := some v}
    | none => .err
  | .StaInfoRxBytes64 =>
    match decodeU 8 attr.nla_payload with
    | some v => .ok {res with rx_bytes := some v}
    | none => .err
  | .StaInfoRxBytes =>
    if res.rx_bytes.isNone then
      match decodeU 4 attr.nla_payload with
      | some v => .ok {res with rx_bytes := some v}
      | none => .err
    else .ok res
  | .StaInfoRxPackets =>
    match decodeU 4 attr.nla_payload with
    | some v => .ok {res with rx_packets := some v}
    | none => .err
  | .StaInfoTxBytes64 =>
    match decodeU 8 attr.nla_payload with
    | some v => .ok {res with tx_bytes := some v}
    | none => .err
  | .StaInfoTxBytes =>
    if res.tx_bytes.isNone then
      match decodeU 4 attr.nla_payload with
      | some v => .ok {res with tx_bytes := some v}
      | none => .err
    else .ok res
  | .StaInfoTxPackets =>
    match decodeU 4 attr.nla_payload with
    | some v => .ok {res with tx_packets := some v}
    | none => .err
  | .StaInfoTxRetries =>
    match decodeU 4 attr.nla_payload with
    | some v => .ok {res with tx_retries := some v}
    | none => .err
  | .StaInfoTxFailed =>
    match decodeU 4 attr.nla_payload with
    | some v => .ok {res with tx_failed := some v}
    | none => .err
  | .StaInfoBeaconLoss =>
    match decodeU 4 attr.nla_payload with
    | some v => .ok {res with beacon_loss := some v}
    | none => .err
  | .StaInfoBeaconRx =>
    match decodeU 8 attr.nla_payload with
    | some v => .ok {res with beacon_rx := some v}
    | none => .err
  | .StaInfoRxDropMisc =>
    match decodeU 8 attr.nla_payload with
    | some v => .ok {res with rx_drop_misc := some v}
    | none => .err
  | .StaInfoSignal =>
    match decodeI8 attr.nla_payload with
    | some v => .ok {res with signal := some v}
    | none => .err
  | .StaInfoSignalAvg =>
    match decodeI8 attr.nla_payload with
    | some v => .ok {res with average_signal := some v}
    | none => .err
  | .StaInfoBeaconSignalAvg =>
    match decodeI8 attr.nla_payload with
    | some v => .ok {res with beacon_signal_avg := some v}
    | none => .err
  | .StaInfoTOffset =>
    match decodeU 8 attr.nla_payload with
    | some v => .ok {res with t_offset := some v}
    | none => .err
  | .StaInfoTxBitrate =>
    match parseAttrs attr.nla_payload with
    | none => .err
    | some raw =>
      match raw.find? (fun tp => rateInfoOfNat tp.1 = .RateInfoBitrate32) with
      | none => .ok res
      | some tp =>
        match decodeU 4 tp.2 with
        | some v => .ok {res with tx_bitrate := some v}
        | none => .err
  | .StaInfoTxDuration =>
    match decodeU 8 attr.nla_payload with
    | some v => .ok {res with tx_duration := some v}
    | none => .err
  | .StaInfoRxBitrate =>
    match parseAttrs attr.nla_payload with
    | none => .err
    | some raw =>
      match raw.find? (fun tp => rateInfoOfNat tp.1 = .RateInfoBitrate32) with
      | none => .ok res
      | some tp =>
        match decodeU 4 tp.2 with
        | some v => .ok {res with rx_bitrate := some v}
        | none => .err
  | .StaInfoRxDuration =>
    match decodeU 8 attr.nla_payload with
    | some v => .ok {res with rx_duration := some v}
    | none => .err
  | .StaInfoAckSignal =>
    match decodeI8 attr.nla_payload with
    | some v => .ok {res with ack_signal := some v}
    | none => .err
  | .StaInfoAckSignalAvg =>
    match decodeI8 attr.nla_payload with
    | some v => .ok {res with ack_signal_avg := some v}
    | none => .err
  | .StaInfoConnectedTime =>
    match decodeU 4 attr.nla_payload with
    | some v => .ok {res with connected_time := some v}
    | none => .err
  | .StaInfoOther _ => .ok res

/-- The `for attr in attrs.iter()` loop of `station.rs`: fold `staStep`
over the sub-attributes, short-circuiting on the first failure. -/
def staFold : Station → List StaAttr → MapResult Station
  | res, [] => .ok res
  | res, a :: rest =>
    match staStep res a with
    | .ok res2 => staFold res2 rest
    | .err => .err
    | .fatal => .fatal

/-- `TryFrom<Attrs<Nl80211Attr>> for Station` (`station.rs` lines 44–134):
copy the MAC verbatim as `bssid` if present, then look up the station-info
container; its payload is re-parsed as a nested attribute tree — with
`unwrap`, so a malformed payload is a panic (`fatal`) — and folded through
the dispatch loop. -/
def stationTryFrom (attrs : List TopAttr) : MapResult Station :=
  let res0 : Station := Station.default
  let res1 : Station :=
    match getAttribute attrs .AttrMac with
    | some a => {res0 with bssid := some a.nla_payload}
    | none => res0
  match getAttribute attrs .AttrStaInfo with
  | none => .ok res1
  | some info =>
    match parseAttrs info.nla_payload with
    | none => .fatal
    | some raw => staFold res1 (raw.map (fun tp => ⟨staInfoOfNat tp.1, tp.2⟩))

/-- The `Interface` record of `interface.rs` (the index, SSID, MAC and name
are raw byte blobs, preserved verbatim; the rest are little-endian
integers). -/
structure Interface where
  index : Option (List Nat)
  ssid : Option (List Nat)
  mac : Option (List Nat)
  name : Option (List Nat)
  frequency : Option Nat
  channel : Option Nat
  power : Option Nat
  phy : Option Nat
  device : Option Nat
  deriving DecidableEq, Repr

/-- `Interface::default()`: the all-absent record. -/
def Interface.default : Interface :=
  ⟨none, none, none, none, none, none, none, none, none⟩

/-- One arm of the `match` in `interface.rs` (lines 51–76): blob fields are
copied verbatim (`get_payload_as_with_len`, which cannot fail), integer
fields are width-checked little-endian decodes, and every other attribute
type falls to the catch-all. -/
def interfaceStep (res : Interface) (attr : TopAttr) : MapResult Interface :=
  match attr.nla_type with
  | .AttrIfindex => .ok {res with index := some attr.nla_payload}
  | .AttrSsid => .ok {res with ssid := some attr.nla_payload}
  | .AttrMac => .ok {res with mac := some attr.nla_payload}
  | .AttrIfname => .ok {res with name := some attr.nla_payload}
  | .AttrWiphyFreq =>
    match decodeU 4 attr.nla_payload with
    | some v => .ok {res with frequency := some v}
    | none => .err
  | .AttrChannelWidth =>
    match decodeU 4 attr.nla_payload with
    | some v => .ok {res with channel := some v}
    | none => .err
  | .AttrWiphyTxPowerLevel =>
    match decodeU 4 attr.nla_payload with
    | some v => .ok {res with power := some v}
    | none => .err
  | .AttrWiphy =>
    match decodeU 4 attr.nla_payload with
    | some v => .ok {res with phy := some v}
    | none => .err
  | .AttrWdev =>
    match decodeU 8 attr.nla_payload with
    | some v => .ok {res with device := some v}
    | none => .err
  | _ => .ok res

/-- The `for attr in attrs.iter()` loop of `interface.rs`. -/
def interfaceFold : Interface → List TopAttr → MapResult Interface
  | res, [] => .ok res
  | res, a :: rest =>
    match interfaceStep res a with
    | .ok res2 => interfaceFold res2 rest
    | .err => .err
    | .fatal => .fatal

/-- `TryFrom<Attrs<Nl80211Attr>> for Interface` (`interface.rs`
lines 45–80). -/
def interfaceTryFrom (attrs : List TopAttr) : MapResult Interface :=
  interfaceFold Interface.default attrs

/-- Modelled from the spec: the BSS sub-attribute space of `bss.rs` is not
under `src/`.  §4.5 leaves the exact field set open; two representative
fields are modelled (a raw-blob BSSID and a 4-byte little-endian frequency),
with an unrecognized constructor for everything else. -/
inductive Nl80211BssInfo where
  | BssInfoBssid
  | BssInfoFrequency
  | BssInfoOther (n : Nat)
  deriving DecidableEq, Repr

/-- Modelled from the spec: numeric values for the modelled BSS sub-tags. -/
def bssInfoOfNat : Nat → Nl80211BssInfo
  | 1 => .BssInfoBssid
  | 2 => .BssInfoFrequency
  | n => .BssInfoOther n

/-- Modelled from the spec: the `Bss` record of `bss.rs` is not under
`src/`; §3/§4.5 make it a small record of optional fields with
default-on-absence. -/
structure Bss where
  bssid : Option (List Nat)
  frequency : Option Nat
  deriving DecidableEq, Repr

/-- Modelled from the spec: `Bss::default()`, the all-absent record
(`socket.rs` line 203 and `async_socket.rs` line 225 return it when the dump
ends with nothing accumulated). -/
def Bss.default : Bss := ⟨none, none⟩

/-- Modelled from the spec: one dispatch arm of the Bss mapper (§4.5 —
fixed dispatch table, skip-unknown). -/
def bssStep (res : Bss) (attr : Nlattr Nl80211BssInfo) : MapResult Bss :=
  match attr.nla_type with
  | .BssInfoBssid => .ok {res with bssid := some attr.nla_payload}
  | .BssInfoFrequency =>
    match decodeU 4 attr.nla_payload with
    | some v => .ok {res with frequency := some v}
    | none => .err
  | .BssInfoOther _ => .ok res

/-- Modelled from the spec: the Bss mapper's pass over its sub-tree. -/
def bssFold : Bss → List (Nlattr Nl80211BssInfo) → MapResult Bss
  | res, [] => .ok res
  | res, a :: rest =>
    match bssStep res a with
    | .ok res2 => bssFold res2 rest
    | .err => .err
    | .fatal => .fatal

/-- Modelled from the spec: `TryFrom<Attrs<Nl80211Attr>> for Bss` of the
absent `bss.rs` — per §4.5 structurally analogous to the station mapper: one
nested lookup of the BSS container, whose payload is re-parsed and folded
through a fixed dispatch table with skip-unknown and default-on-absence. -/
def bssTryFrom (attrs : List TopAttr) : MapResult Bss :=
  match getAttribute attrs .AttrBss with
  | none => .ok Bss.default
  | some info =>
    match parseAttrs info.nla_payload with
    | none => .err
    | some raw => bssFold Bss.default (raw.map (fun tp => ⟨bssInfoOfNat tp.1, tp.2⟩))

/-- One response message of a dump exchange, classified as in the loops of
`socket.rs`/`async_socket.rs`: `Noop` is skipped, `Error` panics, `Done`
terminates, and every other `nl_type` is treated as a data message carrying
a decoded attribute tree (`get_attr_handle`). -/
inductive NlMsg where
  | noop
  | error
  | done
  | data (attrs : List TopAttr)
  deriving DecidableEq, Repr

/-- Outcome of a dump loop: a returned value, a propagated `Err`, a panic
(`fatal`), or — for the async loops, whose `loop { recv }` never exits by
itself — suspension awaiting further kernel messages (`pending`). -/
inductive DumpResult (α : Type) where
  | ok (a : α)
  | err
  | fatal
  | pending
  deriving DecidableEq, Repr

/-- Lift a mapper outcome into a dump outcome. -/
def MapResult.toDump {α : Type} : MapResult α → DumpResult α
  | .ok a => .ok a
  | .err => .err
  | .fatal => .fatal

namespace Socket

/-- The receive loop of `Socket::get_interfaces_info` (`socket.rs`
lines 65–82): iterate over the received messages; `Noop` is skipped,
`Error` panics, `Done` breaks returning the accumulated list, and each data
message's tree is mapped and appended (a mapper `Err` propagates via `?`).
Exhaustion of the iterator also ends the loop with the accumulated list. -/
def interfacesLoop : List NlMsg → List Interface → DumpResult (List Interface)
  | [], acc => .ok acc
  | .noop :: rest, acc => interfacesLoop rest acc
  | .error :: _, _ => .fatal
  | .done :: _, acc => .ok acc
  | .data t :: rest, acc =>
    match interfaceTryFrom t with
    | .ok i => interfacesLoop rest (acc ++ [i])
    | .err => .err
    | .fatal => .fatal

/-- `Socket::get_interfaces_info`, as a function of the response message
stream (request construction and the transport are out of scope). -/
def get_interfaces_info (msgs : List NlMsg) : DumpResult (List Interface) :=
  interfacesLoop msgs []

/-- `Socket::get_station_info` (`socket.rs` lines 141–154): the first data
message's tree is mapped and returned immediately (`return Ok(...)`);
`Done` — or iterator exhaustion — yields `Station::default()`. -/
def get_station_info : List NlMsg → DumpResult Station
  | [] => .ok Station.default
  | .noop :: rest => get_station_info rest
  | .error :: _ => .fatal
  | .done :: _ => .ok Station.default
  | .data t :: _ => (stationTryFrom t).toDump

/-- `Socket::get_bss_info` (`socket.rs` lines 191–203): same shape as
`get_station_info`, returning at the first data message. -/
def get_bss_info : List NlMsg → DumpResult Bss
  | [] => .ok Bss.default
  | .noop :: rest => get_bss_info rest
  | .error :: _ => .fatal
  | .done :: _ => .ok Bss.default
  | .data t :: _ => (bssTryFrom t).toDump

end Socket

namespace AsyncSocket

/-- The receive loop of `AsyncSocket::get_interfaces_info`
(`async_socket.rs` lines 79–95).  Batch boundaries of `recv` are invisible
to the per-message classification, so the batches are modelled as one
concatenated message list; running out of messages leaves the loop awaiting
the next batch (`pending`). -/
def interfacesLoop : List NlMsg → List Interface → DumpResult (List Interface)
  | [], _ => .pending
  | .noop :: rest, acc => interfacesLoop rest acc
  | .error :: _, _ => .fatal
  | .done :: _, acc => .ok acc
  | .data t :: rest, acc =>
    match interfaceTryFrom t with
    | .ok i => interfacesLoop rest (acc ++ [i])
    | .err => .err
    | .fatal => .fatal

/-- `AsyncSocket::get_interfaces_info` over the response stream. -/
def get_interfaces_info (msgs : List NlMsg) : DumpResult (List Interface) :=
  interfacesLoop msgs []

/-- The receive loop of `AsyncSocket::get_station_info` (`async_socket.rs`
lines 157–179): every data message overwrites `retval`, and `Done` returns
`retval.unwrap_or_default()`. -/
def stationLoop : List NlMsg → Option Station → DumpResult Station
  | [], _ => .pending
  | .noop :: rest, retval => stationLoop rest retval
  | .error :: _, _ => .fatal
  | .done :: _, retval => .ok (retval.getD Station.default)
  | .data t :: rest, _ =>
    match stationTryFrom t with
    | .ok s => stationLoop rest (some s)
    | .err => .err
    | .fatal => .fatal

/-- `AsyncSocket::get_station_info` over the response stream. -/
def get_station_info (msgs : List NlMsg) : DumpResult Station :=
  stationLoop msgs none

/-- The receive loop of `AsyncSocket::get_bss_info` (`async_socket.rs`
lines 216–238): same keep-most-recent shape as the station loop. -/
def bssLoop : List NlMsg → Option Bss → DumpResult Bss
  | [], _ => .pending
  | .noop :: rest, retval => bssLoop rest retval
  | .error :: _, _ => .fatal
  | .done :: _, retval => .ok (retval.getD Bss.default)
  | .data t :: rest, _ =>
    match bssTryFrom t with
    | .ok b => bssLoop rest (some b)
    | .err => .err
    | .fatal => .fatal

/-- `AsyncSocket::get_bss_info` over the response stream. -/
def get_bss_info (msgs : List NlMsg) : DumpResult Bss :=
  bssLoop msgs none

end AsyncSocket

/-- The attribute types the interface mapper dispatches on; everything else
falls to its catch-all arm. -/
def interfaceRelevant : Nl80211Attr → Bool
  | .AttrIfindex => true
  | .AttrSsid => true
  | .AttrMac => true
  | .AttrIfname => true
  | .AttrWiphyFreq => true
  | .AttrChannelWidth => true
  | .AttrWiphyTxPowerLevel => true
  | .AttrWiphy => true
  | .AttrWdev => true
  | _ => false

/-- The records decoded from the data messages of a message list, in
arrival order (messages of other kinds contribute nothing). -/
def decodedInterfaces : List NlMsg → List Interface
  | [] => []
  | .data t :: rest =>
    (match interfaceTryFrom t with
     | .ok i => [i]
     | .err => []
     | .fatal => []) ++ decodedInterfaces rest
  | _ :: rest => decodedInterfaces rest

/-- A message is benign for the append loops: a `Noop`, or a data message
whose tree decodes successfully. -/
def goodIfMsg (m : NlMsg) : Prop :=
  m = .noop ∨ ∃ t i, m = .data t ∧ interfaceTryFrom t = .ok i

/-- A message is benign for the async single-record loops: a `Noop`, or a
data message whose station tree decodes successfully. -/
def goodStaMsg (m : NlMsg) : Prop :=
  m = .noop ∨ ∃ t s, m = .data t ∧ stationTryFrom t = .ok s

/-- A message is benign for the async single-record loops: a `Noop`, or a
data message whose BSS tree decodes successfully. -/
def goodBssMsg (m : NlMsg) : Prop :=
  m = .noop ∨ ∃ t b, m = .data t ∧ bssTryFrom t = .ok b

/-! ### Helper lemmas -/

theorem staFold_append (s : Station) (l₁ l₂ : List StaAttr) :
    staFold s (l₁ ++ l₂) =
      match staFold s l₁ with
      | .ok s₁ => staFold s₁ l₂
      | .err => .err
      | .fatal => .fatal := by
  induction l₁ generalizing s with
  | nil => simp [staFold]
  | cons a rest ih =>
    simp only [List.cons_append, staFold]
    cases staStep s a <;> simp [ih]

theorem interfaceFold_append (s : Interface) (l₁ l₂ : List TopAttr) :
    interfaceFold s (l₁ ++ l₂) =
      match interfaceFold s l₁ with
      | .ok s₁ => interfaceFold s₁ l₂
      | .err => .err
      | .fatal => .fatal := by
  induction l₁ generalizing s with
  | nil => simp [interfaceFold]
  | cons a rest ih =>
    simp only [List.cons_append, interfaceFold]
    cases interfaceStep s a <;> simp [ih]

theorem bssFold_append (s : Bss) (l₁ l₂ : List (Nlattr Nl80211BssInfo)) :
    bssFold s (l₁ ++ l₂) =
      match bssFold s l₁ with
      | .ok s₁ => bssFold s₁ l₂
      | .err => .err
      | .fatal => .fatal := by
  induction l₁ generalizing s with
  | nil => simp [bssFold]
  | cons a rest ih =>
    simp only [List.cons_append, bssFold]
    cases bssStep s a <;> simp [ih]

theorem getAttribute_append_ne {T : Type} [DecidableEq T]
    (l₁ l₂ : List (Nlattr T)) (a : Nlattr T) (t : T) (h : a.nla_type ≠ t) :
    getAttribute (l₁ ++ a :: l₂) t = getAttribute (l₁ ++ l₂) t := by
  induction l₁ with
  | nil => simp [getAttribute, List.find?_cons, h]
  | cons b rest ih =>
    simp only [List.cons_append, getAttribute, List.find?_cons] at ih ⊢
    split <;> simp_all [getAttribute]

theorem interfaceStep_skip {res : Interface} {a : TopAttr}
    (h : interfaceRelevant a.nla_type = false) : interfaceStep res a = .ok res := by
  obtain ⟨t, p⟩ := a
  cases t <;> simp_all [interfaceRelevant, interfaceStep]

theorem staStep_other (res : Station) (n : Nat) (p : List Nat) :
    staStep res ⟨.StaInfoOther n, p⟩ = .ok res := rfl

theorem bssStep_other (res : Bss) (n : Nat) (p : List Nat) :
    bssStep res ⟨.BssInfoOther n, p⟩ = .ok res := rfl

theorem staStep_rx_bytes_frame {res res' : Station} {a : StaAttr}
    (h64 : a.nla_type ≠ .StaInfoRxBytes64) (h32 : a.nla_type ≠ .StaInfoRxBytes)
    (h : staStep res a = .ok res') : res'.rx_bytes = res.rx_bytes := by
  obtain ⟨t, p⟩ := a
  cases t <;> simp only [staStep] at h <;>
    (try exact absurd rfl h64) <;> (try exact absurd rfl h32) <;>
    (repeat' split at h) <;> (try cases h) <;> simp_all

theorem staStep_rx64 {res res' : Station} {p : List Nat}
    (h : staStep res ⟨.StaInfoRxBytes64, p⟩ = .ok res') :
    ∃ v, decodeU 8 p = some v ∧ res'.rx_bytes = some v := by
  simp only [staStep] at h
  split at h <;> cases h <;> simp_all

theorem staStep_rx32_none {res res' : Station} {p : List Nat}
    (hc : res.rx_bytes = none) (h : staStep res ⟨.StaInfoRxBytes, p⟩ = .ok res') :
    ∃ v, decodeU 4 p = some v ∧ res'.rx_bytes = some v := by
  simp only [staStep, hc, Option.isNone_none, if_true] at h
  split at h <;> cases h <;> simp_all

theorem staStep_rx32_some {res res' : Station} {p : List Nat}
    (hc : res.rx_bytes ≠ none) (h : staStep res ⟨.StaInfoRxBytes, p⟩ = .ok res') :
    res'.rx_bytes = res.rx_bytes := by
  simp only [staStep] at h
  have hnc : ¬(res.rx_bytes.isNone = true) := by
    simpa [Option.isNone_iff_eq_none] using hc
  rw [if_neg hnc] at h
  cases h
  rfl

theorem staStep_tx_bytes_frame {res res' : Station} {a : StaAttr}
    (h64 : a.nla_type ≠ .StaInfoTxBytes64) (h32 : a.nla_type ≠ .StaInfoTxBytes)
    (h : staStep res a = .ok res') : res'.tx_bytes = res.tx_bytes := by
  obtain ⟨t, p⟩ := a
  cases t <;> simp only [staStep] at h <;>
    (try exact absurd rfl h64) <;> (try exact absurd rfl h32) <;>
    (repeat' split at h) <;> (try cases h) <;> simp_all

theorem staStep_tx64 {res res' : Station} {p : List Nat}
    (h : staStep res ⟨.StaInfoTxBytes64, p⟩ = .ok res') :
    ∃ v, decodeU 8 p = some v ∧ res'.tx_bytes = some v := by
  simp only [staStep] at h
  split at h <;> cases h <;> simp_all

theorem staStep_tx32_none {res res' : Station} {p : List Nat}
    (hc : res.tx_bytes = none) (h : staStep res ⟨.StaInfoTxBytes, p⟩ = .ok res') :
    ∃ v, decodeU 4 p = some v ∧ res'.tx_bytes = some v := by
  simp only [staStep, hc, Option.isNone_none, if_true] at h
  split at h <;> cases h <;> simp_all

theorem staStep_tx32_some {res res' : Station} {p : List Nat}
    (hc : res.tx_bytes ≠ none) (h : staStep res ⟨.StaInfoTxBytes, p⟩ = .ok res') :
    res'.tx_bytes = res.tx_bytes := by
  simp only [staStep] at h
  have hnc : ¬(res.tx_bytes.isNone = true) := by
    simpa [Option.isNone_iff_eq_none] using hc
  rw [if_neg hnc] at h
  cases h
  rfl

theorem staStep_tx_bitrate_frame {res res' : Station} {a : StaAttr}
    (ht : a.nla_type ≠ .StaInfoTxBitrate) (h : staStep res a = .ok res') :
    res'.tx_bitrate = res.tx_bitrate := by
  obtain ⟨t, p⟩ := a
  cases t <;> simp only [staStep] at h <;>
    (try exact absurd rfl ht) <;>
    (repeat' split at h) <;> (try cases h) <;> simp_all

theorem staStep_rx_bitrate_frame {res res' : Station} {a : StaAttr}
    (ht : a.nla_type ≠ .StaInfoRxBitrate) (h : staStep res a = .ok res') :
    res'.rx_bitrate = res.rx_bitrate := by
  obtain ⟨t, p⟩ := a
  cases t <;> simp only [staStep] at h <;>
    (try exact absurd rfl ht) <;>
    (repeat' split at h) <;> (try cases h) <;> simp_all

theorem staStep_tx_bitrate {res res' : Station} {p : List Nat}
    (hc : res.tx_bitrate = none)
    (h : staStep res ⟨.StaInfoTxBitrate, p⟩ = .ok res') :
    ∃ raw, parseAttrs p = some raw ∧
      res'.tx_bitrate =
        (raw.find? (fun tp => rateInfoOfNat tp.1 = .RateInfoBitrate32)).bind
          (fun tp => decodeU 4 tp.2) := by
  simp only [staStep] at h
  split at h
  next hp => cases h
  next raw hp =>
    refine ⟨raw, hp, ?_⟩
    split at h
    next hf => rw [hf]; cases h; simp [hc]
    next tp hf =>
      rw [hf]
      split at h
      next v hd => cases h; simp [hd]
      next hd => cases h

theorem staStep_rx_bitrate {res res' : Station} {p : List Nat}
    (hc : res.rx_bitrate = none)
    (h : staStep res ⟨.StaInfoRxBitrate, p⟩ = .ok res') :
    ∃ raw, parseAttrs p = some raw ∧
      res'.rx_bitrate =
        (raw.find? (fun tp => rateInfoOfNat tp.1 = .RateInfoBitrate32)).bind
          (fun tp => decodeU 4 tp.2) := by
  simp only [staStep] at h
  split at h
  next hp => cases h
  next raw hp =>
    refine ⟨raw, hp, ?_⟩
    split at h
    next hf => rw [hf]; cases h; simp [hc]
    next tp hf =>
      rw [hf]
      split at h
      next v hd => cases h; simp [hd]
      next hd => cases h

theorem staFold_rx_bytes_frame {s res : Station} {l : List StaAttr}
    (hl : ∀ a ∈ l, a.nla_type ≠ .StaInfoRxBytes64 ∧ a.nla_type ≠ .StaInfoRxBytes)
    (h : staFold s l = .ok res) : res.rx_bytes = s.rx_bytes := by
  induction l generalizing s with
  | nil => cases h; rfl
  | cons a rest ih =>
    simp only [staFold] at h
    cases hs : staStep s a with
    | ok s2 =>
      rw [hs] at h
      have := staStep_rx_bytes_frame (hl a (by simp)).1 (hl a (by simp)).2 hs
      rw [ih (fun b hb => hl b (by simp [hb])) h, this]
    | err => rw [hs] at h; cases h
    | fatal => rw [hs] at h; cases h

/-- Once the 64-bit byte counter has been recorded, a tail without further
64-bit counter attributes leaves it unchanged (the legacy 32-bit arm only
fires when the field is still absent). -/
theorem staFold_rx_bytes_keep {s res : Station} {l : List StaAttr}
    (hl : ∀ a ∈ l, a.nla_type ≠ .StaInfoRxBytes64) (hs : s.rx_bytes ≠ none)
    (h : staFold s l = .ok res) : res.rx_bytes = s.rx_bytes := by
  induction l generalizing s with
  | nil => cases h; rfl
  | cons a rest ih =>
    simp only [staFold] at h
    cases hstep : staStep s a with
    | ok s2 =>
      rw [hstep] at h
      have h2 : s2.rx_bytes = s.rx_bytes := by
        by_cases h32 : a.nla_type = .StaInfoRxBytes
        · obtain ⟨t, p⟩ := a
          cases h32
          exact staStep_rx32_some hs hstep
        · exact staStep_rx_bytes_frame (hl a (by simp)) h32 hstep
      rw [ih (fun b hb => hl b (by simp [hb])) (by rw [h2]; exact hs) h, h2]
    | err => rw [hstep] at h; cases h
    | fatal => rw [hstep] at h; cases h

theorem staFold_tx_bytes_frame {s res : Station} {l : List StaAttr}
    (hl : ∀ a ∈ l, a.nla_type ≠ .StaInfoTxBytes64 ∧ a.nla_type ≠ .StaInfoTxBytes)
    (h : staFold s l = .ok res) : res.tx_bytes = s.tx_bytes := by
  induction l generalizing s with
  | nil => cases h; rfl
  | cons a rest ih =>
    simp only [staFold] at h
    cases hs : staStep s a with
    | ok s2 =>
      rw [hs] at h
      have := staStep_tx_bytes_frame (hl a (by simp)).1 (hl a (by simp)).2 hs
      rw [ih (fun b hb => hl b (by simp [hb])) h, this]
    | err => rw [hs] at h; cases h
    | fatal => rw [hs] at h; cases h

theorem staFold_tx_bytes_keep {s res : Station} {l : List StaAttr}
    (hl : ∀ a ∈ l, a.nla_type ≠ .StaInfoTxBytes64) (hs : s.tx_bytes ≠ none)
    (h : staFold s l = .ok res) : res.tx_bytes = s.tx_bytes := by
  induction l generalizing s with
  | nil => cases h; rfl
  | cons a rest ih =>
    simp only [staFold] at h
    cases hstep : staStep s a with
    | ok s2 =>
      rw [hstep] at h
      have h2 : s2.tx_bytes = s.tx_bytes := by
        by_cases h32 : a.nla_type = .StaInfoTxBytes
        · obtain ⟨t, p⟩ := a
          cases h32
          exact staStep_tx32_some hs hstep
        · exact staStep_tx_bytes_frame (hl a (by simp)) h32 hstep
      rw [ih (fun b hb => hl b (by simp [hb])) (by rw [h2]; exact hs) h, h2]
    | err => rw [hstep] at h; cases h
    | fatal => rw [hstep] at h; cases h

theorem staFold_tx_bitrate_frame {s res : Station} {l : List StaAttr}
    (hl : ∀ a ∈ l, a.nla_type ≠ .StaInfoTxBitrate)
    (h : staFold s l = .ok res) : res.tx_bitrate = s.tx_bitrate := by
  induction l generalizing s with
  | nil => cases h; rfl
  | cons a rest ih =>
    simp only [staFold] at h
    cases hs : staStep s a with
    | ok s2 =>
      rw [hs] at h
      rw [ih (fun b hb => hl b (by simp [hb])) h,
        staStep_tx_bitrate_frame (hl a (by simp)) hs]
    | err => rw [hs] at h; cases h
    | fatal => rw [hs] at h; cases h

theorem staFold_rx_bitrate_frame {s res : Station} {l : List StaAttr}
    (hl : ∀ a ∈ l, a.nla_type ≠ .StaInfoRxBitrate)
    (h : staFold s l = .ok res) : res.rx_bitrate = s.rx_bitrate := by
  induction l generalizing s with
  | nil => cases h; rfl
  | cons a rest ih =>
    simp only [staFold] at h
    cases hs : staStep s a with
    | ok s2 =>
      rw [hs] at h
      rw [ih (fun b hb => hl b (by simp [hb])) h,
        staStep_rx_bitrate_frame (hl a (by simp)) hs]
    | err => rw [hs] at h; cases h
    | fatal => rw [hs] at h; cases h

theorem Socket.interfacesLoop_data {t : List TopAttr} {i : Interface}
    (rest : List NlMsg) (acc : List Interface) (ht : interfaceTryFrom t = .ok i) :
    Socket.interfacesLoop (NlMsg.data t :: rest) acc =
      Socket.interfacesLoop rest (acc ++ [i]) := by
  simp [Socket.interfacesLoop, ht]

theorem AsyncSocket.interfacesLoop_data_async {t : List TopAttr} {i : Interface}
    (rest : List NlMsg) (acc : List Interface) (ht : interfaceTryFrom t = .ok i) :
    AsyncSocket.interfacesLoop (NlMsg.data t :: rest) acc =
      AsyncSocket.interfacesLoop rest (acc ++ [i]) := by
  simp [AsyncSocket.interfacesLoop, ht]

theorem Socket.interfacesLoop_prefix {pre : List NlMsg}
    (hp : ∀ m ∈ pre, goodIfMsg m) (rest : List NlMsg) (acc : List Interface) :
    Socket.interfacesLoop (pre ++ rest) acc =
      Socket.interfacesLoop rest (acc ++ decodedInterfaces pre) := by
  induction pre generalizing acc with
  | nil => simp [decodedInterfaces]
  | cons m pre' ih =>
    rcases hp m (by simp) with hm | ⟨t, i, hm, ht⟩ <;> subst hm
    · simpa [Socket.interfacesLoop, decodedInterfaces] using
        ih (fun m hm => hp m (by simp [hm])) acc
    · rw [List.cons_append, Socket.interfacesLoop_data (pre' ++ rest) acc ht,
        ih (fun m hm => hp m (by simp [hm])) (acc ++ [i])]
      simp [decodedInterfaces, ht]

theorem AsyncSocket.interfacesLoop_prefix_async {pre : List NlMsg}
    (hp : ∀ m ∈ pre, goodIfMsg m) (rest : List NlMsg) (acc : List Interface) :
    AsyncSocket.interfacesLoop (pre ++ rest) acc =
      AsyncSocket.interfacesLoop rest (acc ++ decodedInterfaces pre) := by
  induction pre generalizing acc with
  | nil => simp [decodedInterfaces]
  | cons m pre' ih =>
    rcases hp m (by simp) with hm | ⟨t, i, hm, ht⟩ <;> subst hm
    · simpa [AsyncSocket.interfacesLoop, decodedInterfaces] using
        ih (fun m hm => hp m (by simp [hm])) acc
    · rw [List.cons_append, AsyncSocket.interfacesLoop_data_async (pre' ++ rest) acc ht,
        ih (fun m hm => hp m (by simp [hm])) (acc ++ [i])]
      simp [decodedInterfaces, ht]

theorem Socket.get_station_info_noops {pre : List NlMsg}
    (hp : ∀ m ∈ pre, m = NlMsg.noop) (rest : List NlMsg) :
    Socket.get_station_info (pre ++ rest) = Socket.get_station_info rest := by
  induction pre with
  | nil => rfl
  | cons m pre' ih =>
    rw [hp m (by simp)]
    simpa [Socket.get_station_info] using ih (fun m hm => hp m (by simp [hm]))

theorem Socket.get_bss_info_noops {pre : List NlMsg}
    (hp : ∀ m ∈ pre, m = NlMsg.noop) (rest : List NlMsg) :
    Socket.get_bss_info (pre ++ rest) = Socket.get_bss_info rest := by
  induction pre with
  | nil => rfl
  | cons m pre' ih =>
    rw [hp m (by simp)]
    simpa [Socket.get_bss_info] using ih (fun m hm => hp m (by simp [hm]))

theorem AsyncSocket.stationLoop_noops {pre : List NlMsg}
    (hp : ∀ m ∈ pre, m = NlMsg.noop) (rest : List NlMsg) (r : Option Station) :
    AsyncSocket.stationLoop (pre ++ rest) r = AsyncSocket.stationLoop rest r := by
  induction pre with
  | nil => rfl
  | cons m pre' ih =>
    rw [hp m (by simp)]
    simpa [AsyncSocket.stationLoop] using ih (fun m hm => hp m (by simp [hm]))

theorem AsyncSocket.bssLoop_noops {pre : List NlMsg}
    (hp : ∀ m ∈ pre, m = NlMsg.noop) (rest : List NlMsg) (r : Option Bss) :
    AsyncSocket.bssLoop (pre ++ rest) r = AsyncSocket.bssLoop rest r := by
  induction pre with
  | nil => rfl
  | cons m pre' ih =>
    rw [hp m (by simp)]
    simpa [AsyncSocket.bssLoop] using ih (fun m hm => hp m (by simp [hm]))

theorem AsyncSocket.stationLoop_prefix {pre : List NlMsg}
    (hp : ∀ m ∈ pre, goodStaMsg m) (rest : List NlMsg) (r : Option Station) :
    ∃ r', AsyncSocket.stationLoop (pre ++ rest) r = AsyncSocket.stationLoop rest r' := by
  induction pre generalizing r with
  | nil => exact ⟨r, rfl⟩
  | cons m pre' ih =>
    rcases hp m (by simp) with hm | ⟨t, s, hm, ht⟩ <;> subst hm
    · simpa [AsyncSocket.stationLoop] using ih (fun m hm => hp m (by simp [hm])) r
    · simpa [AsyncSocket.stationLoop, ht] using
        ih (fun m hm => hp m (by simp [hm])) (some s)

theorem AsyncSocket.bssLoop_prefix {pre : List NlMsg}
    (hp : ∀ m ∈ pre, goodBssMsg m) (rest : List NlMsg) (r : Option Bss) :
    ∃ r', AsyncSocket.bssLoop (pre ++ rest) r = AsyncSocket.bssLoop rest r' := by
  induction pre generalizing r with
  | nil => exact ⟨r, rfl⟩
  | cons m pre' ih =>
    rcases hp m (by simp) with hm | ⟨t, b, hm, ht⟩ <;> subst hm
    · simpa [AsyncSocket.bssLoop] using ih (fun m hm => hp m (by simp [hm])) r
    · simpa [AsyncSocket.bssLoop, ht] using
        ih (fun m hm => hp m (by simp [hm])) (some b)

theorem decodedInterfaces_noops {pre : List NlMsg}
    (hp : ∀ m ∈ pre, m = NlMsg.noop) : decodedInterfaces pre = [] := by
  induction pre with
  | nil => rfl
  | cons m pre' ih =>
    rw [hp m (by simp)]
    simpa [decodedInterfaces] using ih (fun m hm => hp m (by simp [hm]))

/-! ### Claim theorems -/

/-- C9: the station mapper interprets the signal-strength attribute (tag 7
in the station-info sub-tree) as a signed 8-bit value, so the raw byte 218
decodes to `signal = -38`; and the interface mapper stores the
interface-index attribute verbatim as the raw byte blob `[3,0,0,0]`, not as
the integer 3. -/
theorem claim_C9_signal_and_index :
    stationTryFrom [⟨.AttrStaInfo, [5, 0, 7, 0, 218, 0, 0, 0]⟩] =
      .ok {Station.default with signal := some (-38)}
    ∧ interfaceTryFrom [⟨.AttrIfindex, [3, 0, 0, 0]⟩] =
      .ok {Interface.default with index := some [3, 0, 0, 0]}
    ∧ ([3, 0, 0, 0] : List Nat) ≠ [3] := by
  refine ⟨by decide, by decide, by decide⟩

/-- C10: there is an attribute tree whose station-info payload is not a
well-formed nested attribute sequence (the single byte `[1]` cannot carry a
4-byte TLV header), and on it the station mapper panics (the `unwrap` at
`station.rs` line 54) rather than returning a decode error or a record. -/
theorem claim_C10_malformed_sta_info_panics :
    stationTryFrom [⟨.AttrStaInfo, [1]⟩] = .fatal := by decide

/-- C5: a dump exchange that reaches `Done` with no preceding `Data`
message (only `Noop`s) succeeds: the interface enumeration returns the
empty list and the station/BSS queries return the all-absent default
record, in both the synchronous and the asynchronous variant. -/
theorem claim_C5_done_without_data (pre post : List NlMsg)
    (hp : ∀ m ∈ pre, m = NlMsg.noop) :
    Socket.get_interfaces_info (pre ++ NlMsg.done :: post) = .ok []
    ∧ AsyncSocket.get_interfaces_info (pre ++ NlMsg.done :: post) = .ok []
    ∧ Socket.get_station_info (pre ++ NlMsg.done :: post) = .ok Station.default
    ∧ AsyncSocket.get_station_info (pre ++ NlMsg.done :: post) = .ok Station.default
    ∧ Socket.get_bss_info (pre ++ NlMsg.done :: post) = .ok Bss.default
    ∧ AsyncSocket.get_bss_info (pre ++ NlMsg.done :: post) = .ok Bss.default := by
  have hp' : ∀ m ∈ pre, goodIfMsg m := fun m hm => Or.inl (hp m hm)
  refine ⟨?_, ?_, ?_, ?_, ?_, ?_⟩
  · show Socket.interfacesLoop _ [] = _
    rw [Socket.interfacesLoop_prefix hp', decodedInterfaces_noops hp]
    rfl
  · show AsyncSocket.interfacesLoop _ [] = _
    rw [AsyncSocket.interfacesLoop_prefix_async hp', decodedInterfaces_noops hp]
    rfl
  · rw [Socket.get_station_info_noops hp]
    rfl
  · show AsyncSocket.stationLoop _ none = _
    rw [AsyncSocket.stationLoop_noops hp]
    rfl
  · rw [Socket.get_bss_info_noops hp]
    rfl
  · show AsyncSocket.bssLoop _ none = _
    rw [AsyncSocket.bssLoop_noops hp]
    rfl

/-- C5 witness: the exchange `[Noop, Done]` on all six query operations. -/
theorem claim_C5_witness :
    Socket.get_interfaces_info [NlMsg.noop, NlMsg.done] = .ok []
    ∧ AsyncSocket.get_interfaces_info [NlMsg.noop, NlMsg.done] = .ok []
    ∧ Socket.get_station_info [NlMsg.noop, NlMsg.done] = .ok Station.default
    ∧ AsyncSocket.get_station_info [NlMsg.noop, NlMsg.done] = .ok Station.default
    ∧ Socket.get_bss_info [NlMsg.noop, NlMsg.done] = .ok Bss.default
    ∧ AsyncSocket.get_bss_info [NlMsg.noop, NlMsg.done] = .ok Bss.default :=
  claim_C5_done_without_data [NlMsg.noop] [] (by decide)

/-- C6: under the append policy, a dump terminated by `Done` returns
exactly the records decoded from the preceding data messages in arrival
order, `Noop`s contributing nothing, in both variants; in particular
`[Noop, Data(A), Noop, Data(B), Done]` yields `[A, B]`. -/
theorem claim_C6_append_in_order (pre post : List NlMsg)
    (hp : ∀ m ∈ pre, goodIfMsg m) :
    Socket.get_interfaces_info (pre ++ NlMsg.done :: post) =
      .ok (decodedInterfaces pre)
    ∧ AsyncSocket.get_interfaces_info (pre ++ NlMsg.done :: post) =
      .ok (decodedInterfaces pre) := by
  constructor
  · show Socket.interfacesLoop _ [] = _
    rw [Socket.interfacesLoop_prefix hp]
    rfl
  · show AsyncSocket.interfacesLoop _ [] = _
    rw [AsyncSocket.interfacesLoop_prefix_async hp]
    rfl

/-- C6 witness: `[Noop, Data(A), Noop, Data(B), Done]` yields exactly
`[A, B]` for two concrete interface trees. -/
theorem claim_C6_witness :
    Socket.get_interfaces_info
        [NlMsg.noop, NlMsg.data [⟨.AttrIfindex, [7, 0, 0, 0]⟩], NlMsg.noop,
         NlMsg.data [⟨.AttrIfindex, [9, 0, 0, 0]⟩], NlMsg.done] =
      .ok [{Interface.default with index := some [7, 0, 0, 0]},
           {Interface.default with index := some [9, 0, 0, 0]}]
    ∧ AsyncSocket.get_interfaces_info
        [NlMsg.noop, NlMsg.data [⟨.AttrIfindex, [7, 0, 0, 0]⟩], NlMsg.noop,
         NlMsg.data [⟨.AttrIfindex, [9, 0, 0, 0]⟩], NlMsg.done] =
      .ok [{Interface.default with index := some [7, 0, 0, 0]},
           {Interface.default with index := some [9, 0, 0, 0]}] := by
  have h := claim_C6_append_in_order
    [NlMsg.noop, NlMsg.data [⟨.AttrIfindex, [7, 0, 0, 0]⟩], NlMsg.noop,
     NlMsg.data [⟨.AttrIfindex, [9, 0, 0, 0]⟩]] []
    (by
      intro m hm
      simp only [List.mem_cons, List.not_mem_nil, or_false] at hm
      rcases hm with h | h | h | h <;> subst h
      · exact Or.inl rfl
      · exact Or.inr ⟨_, {Interface.default with index := some [7, 0, 0, 0]},
          rfl, by decide⟩
      · exact Or.inl rfl
      · exact Or.inr ⟨_, {Interface.default with index := some [9, 0, 0, 0]},
          rfl, by decide⟩)
  simpa [decodedInterfaces] using h

/-- C1 counterexample: on `[Noop, Data(A), Noop, Data(B), Done]` the
synchronous `Socket::get_station_info` — one of the queries the claim
covers — returns the record decoded from the FIRST data message (A), not
the most recent one (B). -/
theorem claim_C1_counterexample :
    Socket.get_station_info
        [NlMsg.noop, NlMsg.data [⟨.AttrMac, [1, 1, 1, 1, 1, 1]⟩], NlMsg.noop,
         NlMsg.data [⟨.AttrMac, [2, 2, 2, 2, 2, 2]⟩], NlMsg.done] =
      .ok {Station.default with bssid := some [1, 1, 1, 1, 1, 1]}
    ∧ ({Station.default with bssid := some [1, 1, 1, 1, 1, 1]} : Station) ≠
      {Station.default with bssid := some [2, 2, 2, 2, 2, 2]} := by
  refine ⟨by decide, by decide⟩

/-- C1 (amended): only the asynchronous station/BSS queries implement
"keep most recent": on `[Noop, Data(A), Noop, Data(B), Done]` they return
B; the synchronous `get_station_info`/`get_bss_info` instead return at the
first data message, yielding A and never reading the rest of the dump. -/
theorem claim_C1_keep_most_recent :
    (∀ (tA tB : List TopAttr) (sA sB : Station),
        stationTryFrom tA = .ok sA → stationTryFrom tB = .ok sB →
        AsyncSocket.get_station_info
            [NlMsg.noop, NlMsg.data tA, NlMsg.noop, NlMsg.data tB, NlMsg.done] =
          .ok sB ∧
        Socket.get_station_info
            [NlMsg.noop, NlMsg.data tA, NlMsg.noop, NlMsg.data tB, NlMsg.done] =
          .ok sA)
    ∧ (∀ (tA tB : List TopAttr) (bA bB : Bss),
        bssTryFrom tA = .ok bA → bssTryFrom tB = .ok bB →
        AsyncSocket.get_bss_info
            [NlMsg.noop, NlMsg.data tA, NlMsg.noop, NlMsg.data tB, NlMsg.done] =
          .ok bB ∧
        Socket.get_bss_info
            [NlMsg.noop, NlMsg.data tA, NlMsg.noop, NlMsg.data tB, NlMsg.done] =
          .ok bA) := by
  constructor
  · intro tA tB sA sB hA hB
    constructor
    · simp [AsyncSocket.get_station_info, AsyncSocket.stationLoop, hA, hB]
    · simp [Socket.get_station_info, hA, MapResult.toDump]
  · intro tA tB bA bB hA hB
    constructor
    · simp [AsyncSocket.get_bss_info, AsyncSocket.bssLoop, hA, hB]
    · simp [Socket.get_bss_info, hA, MapResult.toDump]

/-- C1 witness: the amended statement at concrete station and BSS trees. -/
theorem claim_C1_witness :
    (AsyncSocket.get_station_info
        [NlMsg.noop, NlMsg.data [⟨.AttrMac, [3]⟩], NlMsg.noop,
         NlMsg.data [⟨.AttrMac, [4]⟩], NlMsg.done] =
      .ok {Station.default with bssid := some [4]} ∧
    Socket.get_station_info
        [NlMsg.noop, NlMsg.data [⟨.AttrMac, [3]⟩], NlMsg.noop,
         NlMsg.data [⟨.AttrMac, [4]⟩], NlMsg.done] =
      .ok {Station.default with bssid := some [3]}) ∧
    (AsyncSocket.get_bss_info
        [NlMsg.noop, NlMsg.data [], NlMsg.noop, NlMsg.data [], NlMsg.done] =
      .ok Bss.default ∧
    Socket.get_bss_info
        [NlMsg.noop, NlMsg.data [], NlMsg.noop, NlMsg.data [], NlMsg.done] =
      .ok Bss.default) :=
  ⟨claim_C1_keep_most_recent.1 [⟨.AttrMac, [3]⟩] [⟨.AttrMac, [4]⟩]
      {Station.default with bssid := some [3]}
      {Station.default with bssid := some [4]} (by decide) (by decide),
   claim_C1_keep_most_recent.2 [] [] Bss.default Bss.default
      (by decide) (by decide)⟩

/-- C2 counterexample: the synchronous and asynchronous
`get_station_info` disagree on `[Data(A), Data(B), Done]` — the
synchronous call returns A, the asynchronous one B. -/
theorem claim_C2_counterexample :
    Socket.get_station_info
        [NlMsg.data [⟨.AttrMac, [5]⟩], NlMsg.data [⟨.AttrMac, [6]⟩], NlMsg.done] =
      .ok {Station.default with bssid := some [5]}
    ∧ AsyncSocket.get_station_info
        [NlMsg.data [⟨.AttrMac, [5]⟩], NlMsg.data [⟨.AttrMac, [6]⟩], NlMsg.done] =
      .ok {Station.default with bssid := some [6]}
    ∧ ({Station.default with bssid := some [5]} : Station) ≠
      {Station.default with bssid := some [6]} := by
  refine ⟨by decide, by decide, by decide⟩

/-- C2 (amended): the interface enumerations agree on every message
sequence on which the async loop terminates (on exhaustion the sync loop
returns the accumulated list where the async loop keeps waiting); the
station/BSS pairs agree on exchanges whose data message, if any, is unique
and precedes `Done`; in general the synchronous station/BSS queries return
the first decoded record while the asynchronous ones return the last. -/
theorem claim_C2_sync_async :
    (∀ (msgs : List NlMsg) (acc : List Interface),
        AsyncSocket.interfacesLoop msgs acc = .pending ∨
        AsyncSocket.interfacesLoop msgs acc = Socket.interfacesLoop msgs acc)
    ∧ (∀ (pre mid post : List NlMsg) (t : List TopAttr),
        (∀ m ∈ pre, m = NlMsg.noop) → (∀ m ∈ mid, m = NlMsg.noop) →
        AsyncSocket.get_station_info
            (pre ++ NlMsg.data t :: (mid ++ NlMsg.done :: post)) =
          Socket.get_station_info
            (pre ++ NlMsg.data t :: (mid ++ NlMsg.done :: post)))
    ∧ (∀ (pre mid post : List NlMsg) (t : List TopAttr),
        (∀ m ∈ pre, m = NlMsg.noop) → (∀ m ∈ mid, m = NlMsg.noop) →
        AsyncSocket.get_bss_info
            (pre ++ NlMsg.data t :: (mid ++ NlMsg.done :: post)) =
          Socket.get_bss_info
            (pre ++ NlMsg.data t :: (mid ++ NlMsg.done :: post)))
    ∧ (∀ (pre post : List NlMsg), (∀ m ∈ pre, m = NlMsg.noop) →
        AsyncSocket.get_station_info (pre ++ NlMsg.done :: post) =
          Socket.get_station_info (pre ++ NlMsg.done :: post) ∧
        AsyncSocket.get_bss_info (pre ++ NlMsg.done :: post) =
          Socket.get_bss_info (pre ++ NlMsg.done :: post)) := by
  refine ⟨?_, ?_, ?_, ?_⟩
  · intro msgs
    induction msgs with
    | nil => intro acc; exact Or.inl rfl
    | cons m rest ih =>
      intro acc
      cases m with
      | noop => simpa [AsyncSocket.interfacesLoop, Socket.interfacesLoop] using ih acc
      | error => exact Or.inr rfl
      | done => exact Or.inr rfl
      | data t =>
        cases ht : interfaceTryFrom t with
        | ok i =>
          simpa [AsyncSocket.interfacesLoop, Socket.interfacesLoop, ht] using
            ih (acc ++ [i])
        | err => simp [AsyncSocket.interfacesLoop, Socket.interfacesLoop, ht]
        | fatal => simp [AsyncSocket.interfacesLoop, Socket.interfacesLoop, ht]
  · intro pre mid post t hpre hmid
    rw [Socket.get_station_info_noops hpre]
    show AsyncSocket.stationLoop _ none = _
    rw [AsyncSocket.stationLoop_noops hpre]
    cases ht : stationTryFrom t with
    | ok s =>
      simp only [AsyncSocket.stationLoop, ht, Socket.get_station_info,
        MapResult.toDump]
      rw [AsyncSocket.stationLoop_noops hmid]
      rfl
    | err => simp [AsyncSocket.stationLoop, ht, Socket.get_station_info,
        MapResult.toDump]
    | fatal => simp [AsyncSocket.stationLoop, ht, Socket.get_station_info,
        MapResult.toDump]
  · intro pre mid post t hpre hmid
    rw [Socket.get_bss_info_noops hpre]
    show AsyncSocket.bssLoop _ none = _
    rw [AsyncSocket.bssLoop_noops hpre]
    cases ht : bssTryFrom t with
    | ok b =>
      simp only [AsyncSocket.bssLoop, ht, Socket.get_bss_info, MapResult.toDump]
      rw [AsyncSocket.bssLoop_noops hmid]
      rfl
    | err => simp [AsyncSocket.bssLoop, ht, Socket.get_bss_info, MapResult.toDump]
    | fatal => simp [AsyncSocket.bssLoop, ht, Socket.get_bss_info, MapResult.toDump]
  · intro pre post hpre
    constructor
    · rw [Socket.get_station_info_noops hpre]
      show AsyncSocket.stationLoop _ none = _
      rw [AsyncSocket.stationLoop_noops hpre]
      rfl
    · rw [Socket.get_bss_info_noops hpre]
      show AsyncSocket.bssLoop _ none = _
      rw [AsyncSocket.bssLoop_noops hpre]
      rfl

/-- C2 witness: the amended statement instantiated on concrete exchanges. -/
theorem claim_C2_witness :
    (AsyncSocket.interfacesLoop [NlMsg.done] [] = .pending ∨
      AsyncSocket.interfacesLoop [NlMsg.done] [] =
        Socket.interfacesLoop [NlMsg.done] [])
    ∧ AsyncSocket.get_station_info
        [NlMsg.noop, NlMsg.data [⟨.AttrMac, [8]⟩], NlMsg.done] =
      Socket.get_station_info [NlMsg.noop, NlMsg.data [⟨.AttrMac, [8]⟩], NlMsg.done]
    ∧ AsyncSocket.get_bss_info [NlMsg.data [], NlMsg.done] =
      Socket.get_bss_info [NlMsg.data [], NlMsg.done] :=
  ⟨claim_C2_sync_async.1 [NlMsg.done] [],
   claim_C2_sync_async.2.1 [NlMsg.noop] [] [] [⟨.AttrMac, [8]⟩]
     (by decide) (by decide),
   claim_C2_sync_async.2.2.1 [] [] [] [] (by decide) (by decide)⟩

/-- C4 counterexample: on `[Data(A), Error]` the synchronous
`Socket::get_station_info` — one of the six queries the claim covers —
returns the record decoded from A instead of surfacing a fatal failure:
it returns at the first data message and never reads the `Error`. -/
theorem claim_C4_counterexample :
    Socket.get_station_info [NlMsg.data [⟨.AttrMac, [7]⟩], NlMsg.error] =
      .ok {Station.default with bssid := some [7]} := by
  decide

/-- C4 (amended): an `Error` message is a fatal panic whenever the loop
actually reaches it — always for the interface enumerations (sync and
async) and the async station/BSS loops, provided everything before it is a
`Noop` or a successfully-decoding data message; the synchronous station/BSS
queries return at the first data message, so for them `Error` is fatal only
when no data message precedes it. -/
theorem claim_C4_error_fatal :
    (∀ (pre post : List NlMsg) (acc : List Interface),
        (∀ m ∈ pre, goodIfMsg m) →
        Socket.interfacesLoop (pre ++ NlMsg.error :: post) acc = .fatal ∧
        AsyncSocket.interfacesLoop (pre ++ NlMsg.error :: post) acc = .fatal)
    ∧ (∀ (pre post : List NlMsg) (r : Option Station),
        (∀ m ∈ pre, goodStaMsg m) →
        AsyncSocket.stationLoop (pre ++ NlMsg.error :: post) r = .fatal)
    ∧ (∀ (pre post : List NlMsg) (r : Option Bss),
        (∀ m ∈ pre, goodBssMsg m) →
        AsyncSocket.bssLoop (pre ++ NlMsg.error :: post) r = .fatal)
    ∧ (∀ (pre post : List NlMsg), (∀ m ∈ pre, m = NlMsg.noop) →
        Socket.get_station_info (pre ++ NlMsg.error :: post) = .fatal ∧
        Socket.get_bss_info (pre ++ NlMsg.error :: post) = .fatal) := by
  refine ⟨?_, ?_, ?_, ?_⟩
  · intro pre post acc hp
    rw [Socket.interfacesLoop_prefix hp, AsyncSocket.interfacesLoop_prefix_async hp]
    exact ⟨rfl, rfl⟩
  · intro pre post r hp
    obtain ⟨r', hr⟩ := AsyncSocket.stationLoop_prefix hp (NlMsg.error :: post) r
    rw [hr]
    rfl
  · intro pre post r hp
    obtain ⟨r', hr⟩ := AsyncSocket.bssLoop_prefix hp (NlMsg.error :: post) r
    rw [hr]
    rfl
  · intro pre post hp
    rw [Socket.get_station_info_noops hp, Socket.get_bss_info_noops hp]
    exact ⟨rfl, rfl⟩

/-- C4 witness: the amended statement on concrete exchanges ending in
`Error`. -/
theorem claim_C4_witness :
    (Socket.interfacesLoop
        [NlMsg.noop, NlMsg.data [⟨.AttrIfindex, [1, 0, 0, 0]⟩], NlMsg.error] [] =
      .fatal ∧
    AsyncSocket.interfacesLoop
        [NlMsg.noop, NlMsg.data [⟨.AttrIfindex, [1, 0, 0, 0]⟩], NlMsg.error] [] =
      .fatal)
    ∧ AsyncSocket.stationLoop [NlMsg.data [⟨.AttrMac, [9]⟩], NlMsg.error] none =
      .fatal
    ∧ AsyncSocket.bssLoop [NlMsg.noop, NlMsg.error] none = .fatal
    ∧ (Socket.get_station_info [NlMsg.noop, NlMsg.error] = .fatal ∧
       Socket.get_bss_info [NlMsg.noop, NlMsg.error] = .fatal) :=
  ⟨claim_C4_error_fatal.1
      [NlMsg.noop, NlMsg.data [⟨.AttrIfindex, [1, 0, 0, 0]⟩]] [] []
      (by
        intro m hm
        simp only [List.mem_cons, List.not_mem_nil, or_false] at hm
        rcases hm with h | h <;> subst h
        · exact Or.inl rfl
        · exact Or.inr ⟨_, {Interface.default with index := some [1, 0, 0, 0]},
            rfl, by decide⟩),
   claim_C4_error_fatal.2.1 [NlMsg.data [⟨.AttrMac, [9]⟩]] [] none
      (by
        intro m hm
        simp only [List.mem_cons, List.not_mem_nil, or_false] at hm
        subst hm
        exact Or.inr ⟨_, {Station.default with bssid := some [9]}, rfl, by decide⟩),
   claim_C4_error_fatal.2.2.1 [NlMsg.noop] [] none
      (fun m hm => Or.inl (by simpa using hm)),
   claim_C4_error_fatal.2.2.2 [NlMsg.noop] [] (by decide)⟩

/-- C3: in the station-info dispatch loop (entered by `stationTryFrom`
with both byte-counter fields absent), the 64-bit rx/tx byte counter takes
precedence over the legacy 32-bit one in all four combinations: with a
64-bit attribute present (in any position relative to a 32-bit one) the
result is its value; with only the 32-bit attribute the result is its
(zero-extended, i.e. identical `Nat`) value; with neither the field stays
absent. -/
theorem claim_C3_counter_precedence (s0 : Station) (l : List StaAttr)
    (res : Station) (hrx0 : s0.rx_bytes = none) (htx0 : s0.tx_bytes = none)
    (h : staFold s0 l = .ok res) :
    ((∀ a ∈ l, a.nla_type ≠ .StaInfoRxBytes64 ∧ a.nla_type ≠ .StaInfoRxBytes) →
        res.rx_bytes = none)
    ∧ (∀ l₁ p l₂, l = l₁ ++ ⟨.StaInfoRxBytes64, p⟩ :: l₂ →
        (∀ a ∈ l₂, a.nla_type ≠ .StaInfoRxBytes64) →
        ∃ v, decodeU 8 p = some v ∧ res.rx_bytes = some v)
    ∧ (∀ l₁ p l₂, l = l₁ ++ ⟨.StaInfoRxBytes, p⟩ :: l₂ →
        (∀ a ∈ l, a.nla_type ≠ .StaInfoRxBytes64) →
        (∀ a ∈ l₁, a.nla_type ≠ .StaInfoRxBytes) →
        ∃ v, decodeU 4 p = some v ∧ res.rx_bytes = some v)
    ∧ ((∀ a ∈ l, a.nla_type ≠ .StaInfoTxBytes64 ∧ a.nla_type ≠ .StaInfoTxBytes) →
        res.tx_bytes = none)
    ∧ (∀ l₁ p l₂, l = l₁ ++ ⟨.StaInfoTxBytes64, p⟩ :: l₂ →
        (∀ a ∈ l₂, a.nla_type ≠ .StaInfoTxBytes64) →
        ∃ v, decodeU 8 p = some v ∧ res.tx_bytes = some v)
    ∧ (∀ l₁ p l₂, l = l₁ ++ ⟨.StaInfoTxBytes, p⟩ :: l₂ →
        (∀ a ∈ l, a.nla_type ≠ .StaInfoTxBytes64) →
        (∀ a ∈ l₁, a.nla_type ≠ .StaInfoTxBytes) →
        ∃ v, decodeU 4 p = some v ∧ res.tx_bytes = some v) := by
  refine ⟨?_, ?_, ?_, ?_, ?_, ?_⟩
  · intro hl
    rw [staFold_rx_bytes_frame hl h, hrx0]
  · intro l₁ p l₂ hl h64
    subst hl
    rw [staFold_append] at h
    split at h
    next s1 h1 =>
      simp only [staFold] at h
      split at h
      next s2 h2 =>
        obtain ⟨v, hd, hv⟩ := staStep_rx64 h2
        refine ⟨v, hd, ?_⟩
        rw [staFold_rx_bytes_keep h64 (by rw [hv]; simp) h, hv]
      next h2 => cases h
      next h2 => cases h
    next h1 => cases h
    next h1 => cases h
  · intro l₁ p l₂ hl h64 h32
    subst hl
    have h64l₁ : ∀ a ∈ l₁, a.nla_type ≠ .StaInfoRxBytes64 := fun a ha =>
      h64 a (by simp [ha])
    have h64l₂ : ∀ a ∈ l₂, a.nla_type ≠ .StaInfoRxBytes64 := fun a ha =>
      h64 a (by simp [ha])
    rw [staFold_append] at h
    split at h
    next s1 h1 =>
      have hs1 : s1.rx_bytes = none := by
        rw [staFold_rx_bytes_frame (fun a ha => ⟨h64l₁ a ha, h32 a ha⟩) h1, hrx0]
      simp only [staFold] at h
      split at h
      next s2 h2 =>
        obtain ⟨v, hd, hv⟩ := staStep_rx32_none hs1 h2
        refine ⟨v, hd, ?_⟩
        rw [staFold_rx_bytes_keep h64l₂ (by rw [hv]; simp) h, hv]
      next h2 => cases h
      next h2 => cases h
    next h1 => cases h
    next h1 => cases h
  · intro hl
    rw [staFold_tx_bytes_frame hl h, htx0]
  · intro l₁ p l₂ hl h64
    subst hl
    rw [staFold_append] at h
    split at h
    next s1 h1 =>
      simp only [staFold] at h
      split at h
      next s2 h2 =>
        obtain ⟨v, hd, hv⟩ := staStep_tx64 h2
        refine ⟨v, hd, ?_⟩
        rw [staFold_tx_bytes_keep h64 (by rw [hv]; simp) h, hv]
      next h2 => cases h
      next h2 => cases h
    next h1 => cases h
    next h1 => cases h
  · intro l₁ p l₂ hl h64 h32
    subst hl
    have h64l₁ : ∀ a ∈ l₁, a.nla_type ≠ .StaInfoTxBytes64 := fun a ha =>
      h64 a (by simp [ha])
    have h64l₂ : ∀ a ∈ l₂, a.nla_type ≠ .StaInfoTxBytes64 := fun a ha =>
      h64 a (by simp [ha])
    rw [staFold_append] at h
    split at h
    next s1 h1 =>
      have hs1 : s1.tx_bytes = none := by
        rw [staFold_tx_bytes_frame (fun a ha => ⟨h64l₁ a ha, h32 a ha⟩) h1, htx0]
      simp only [staFold] at h
      split at h
      next s2 h2 =>
        obtain ⟨v, hd, hv⟩ := staStep_tx32_none hs1 h2
        refine ⟨v, hd, ?_⟩
        rw [staFold_tx_bytes_keep h64l₂ (by rw [hv]; simp) h, hv]
      next h2 => cases h
      next h2 => cases h
    next h1 => cases h
    next h1 => cases h

/-- C3 witness: a station-info sub-tree carrying the legacy 32-bit rx
counter BEFORE the 64-bit one (which must still win) and only the legacy
32-bit tx counter (whose value is used as-is). -/
theorem claim_C3_witness :
    ∃ v w, decodeU 8 [2, 0, 0, 0, 0, 0, 0, 0] = some v ∧
      ({Station.default with rx_bytes := some 2, tx_bytes := some 1} :
          Station).rx_bytes = some v ∧
      decodeU 4 [1, 0, 0, 0] = some w ∧
      ({Station.default with rx_bytes := some 2, tx_bytes := some 1} :
          Station).tx_bytes = some w := by
  have h := claim_C3_counter_precedence Station.default
      [⟨.StaInfoRxBytes, [1, 0, 0, 0]⟩, ⟨.StaInfoRxBytes64, [2, 0, 0, 0, 0, 0, 0, 0]⟩,
       ⟨.StaInfoTxBytes, [1, 0, 0, 0]⟩]
      {Station.default with rx_bytes := some 2, tx_bytes := some 1}
      rfl rfl (by decide)
  obtain ⟨v, hv1, hv2⟩ := h.2.1 [⟨.StaInfoRxBytes, [1, 0, 0, 0]⟩]
      [2, 0, 0, 0, 0, 0, 0, 0] [⟨.StaInfoTxBytes, [1, 0, 0, 0]⟩] rfl (by decide)
  obtain ⟨w, hw1, hw2⟩ := h.2.2.2.2.2
      [⟨.StaInfoRxBytes, [1, 0, 0, 0]⟩, ⟨.StaInfoRxBytes64, [2, 0, 0, 0, 0, 0, 0, 0]⟩]
      [1, 0, 0, 0] [] rfl (by decide) (by decide)
  exact ⟨v, w, hv1, hv2, hw1, hw2⟩

/-- C7: in the station-info dispatch loop, the tx/rx bitrate fields come
from a second level of nesting — the bitrate attribute's payload is
re-parsed as a rate-info tree and only the 32-bit bitrate sub-field
(`RateInfoBitrate32`) is consulted: the result is exactly the decoded
value of that sub-field, `none` when it is absent (the legacy 8/16-bit
representations are never read), and the field stays absent when no
bitrate attribute occurs at all. -/
theorem claim_C7_bitrate_nesting (s0 : Station) (l : List StaAttr)
    (res : Station) (htb0 : s0.tx_bitrate = none) (hrb0 : s0.rx_bitrate = none)
    (h : staFold s0 l = .ok res) :
    ((∀ a ∈ l, a.nla_type ≠ .StaInfoTxBitrate) → res.tx_bitrate = none)
    ∧ (∀ l₁ p l₂, l = l₁ ++ ⟨.StaInfoTxBitrate, p⟩ :: l₂ →
        (∀ a ∈ l₁, a.nla_type ≠ .StaInfoTxBitrate) →
        (∀ a ∈ l₂, a.nla_type ≠ .StaInfoTxBitrate) →
        ∃ raw, parseAttrs p = some raw ∧
          res.tx_bitrate =
            (raw.find? (fun tp => rateInfoOfNat tp.1 = .RateInfoBitrate32)).bind
              (fun tp => decodeU 4 tp.2))
    ∧ ((∀ a ∈ l, a.nla_type ≠ .StaInfoRxBitrate) → res.rx_bitrate = none)
    ∧ (∀ l₁ p l₂, l = l₁ ++ ⟨.StaInfoRxBitrate, p⟩ :: l₂ →
        (∀ a ∈ l₁, a.nla_type ≠ .StaInfoRxBitrate) →
        (∀ a ∈ l₂, a.nla_type ≠ .StaInfoRxBitrate) →
        ∃ raw, parseAttrs p = some raw ∧
          res.rx_bitrate =
            (raw.find? (fun tp => rateInfoOfNat tp.1 = .RateInfoBitrate32)).bind
              (fun tp => decodeU 4 tp.2)) := by
  refine ⟨?_, ?_, ?_, ?_⟩
  · intro hl
    rw [staFold_tx_bitrate_frame hl h, htb0]
  · intro l₁ p l₂ hl h1l h2l
    subst hl
    rw [staFold_append] at h
    split at h
    next s1 h1 =>
      have hs1 : s1.tx_bitrate = none := by
        rw [staFold_tx_bitrate_frame h1l h1, htb0]
      simp only [staFold] at h
      split at h
      next s2 h2 =>
        obtain ⟨raw, hp, hv⟩ := staStep_tx_bitrate hs1 h2
        refine ⟨raw, hp, ?_⟩
        rw [staFold_tx_bitrate_frame h2l h, hv]
      next h2 => cases h
      next h2 => cases h
    next h1 => cases h
    next h1 => cases h
  · intro hl
    rw [staFold_rx_bitrate_frame hl h, hrb0]
  · intro l₁ p l₂ hl h1l h2l
    subst hl
    rw [staFold_append] at h
    split at h
    next s1 h1 =>
      have hs1 : s1.rx_bitrate = none := by
        rw [staFold_rx_bitrate_frame h1l h1, hrb0]
      simp only [staFold] at h
      split at h
      next s2 h2 =>
        obtain ⟨raw, hp, hv⟩ := staStep_rx_bitrate hs1 h2
        refine ⟨raw, hp, ?_⟩
        rw [staFold_rx_bitrate_frame h2l h, hv]
      next h2 => cases h
      next h2 => cases h
    next h1 => cases h
    next h1 => cases h

/-- C7 witness: a tx-bitrate attribute whose rate tree carries the 32-bit
bitrate (tag 5, value 1040) next to an rx-bitrate attribute whose rate
tree carries only the legacy 16-bit bitrate (tag 1) — the former decodes
to 1040, the latter leaves the field absent. -/
theorem claim_C7_witness :
    (∃ raw, parseAttrs [8, 0, 5, 0, 16, 4, 0, 0] = some raw ∧
      ({Station.default with tx_bitrate := some 1040} : Station).tx_bitrate =
        (raw.find? (fun tp => rateInfoOfNat tp.1 = .RateInfoBitrate32)).bind
          (fun tp => decodeU 4 tp.2))
    ∧ (∃ raw, parseAttrs [5, 0, 1, 0, 99, 0, 0, 0] = some raw ∧
      ({Station.default with tx_bitrate := some 1040} : Station).rx_bitrate =
        (raw.find? (fun tp => rateInfoOfNat tp.1 = .RateInfoBitrate32)).bind
          (fun tp => decodeU 4 tp.2)) := by
  have h := claim_C7_bitrate_nesting Station.default
      [⟨.StaInfoTxBitrate, [8, 0, 5, 0, 16, 4, 0, 0]⟩,
       ⟨.StaInfoRxBitrate, [5, 0, 1, 0, 99, 0, 0, 0]⟩]
      {Station.default with tx_bitrate := some 1040} rfl rfl (by decide)
  exact ⟨h.2.1 [] [8, 0, 5, 0, 16, 4, 0, 0]
      [⟨.StaInfoRxBitrate, [5, 0, 1, 0, 99, 0, 0, 0]⟩] rfl (by decide) (by decide),
    h.2.2.2 [⟨.StaInfoTxBitrate, [8, 0, 5, 0, 16, 4, 0, 0]⟩]
      [5, 0, 1, 0, 99, 0, 0, 0] [] rfl (by decide) (by decide)⟩

/-- C8: every domain mapper silently skips attributes whose type is not in
its dispatch table — removing such an attribute from the tree does not
change the result (so it can neither set a field nor cause a failure):
for the interface mapper any type outside its nine-entry table, for the
station mapper any top-level type other than MAC and station-info and any
station-info sub-type hitting the catch-all arm, and likewise for the
(spec-modelled) BSS mapper. -/
theorem claim_C8_skip_unknown :
    (∀ (l₁ l₂ : List TopAttr) (a : TopAttr), interfaceRelevant a.nla_type = false →
        interfaceTryFrom (l₁ ++ a :: l₂) = interfaceTryFrom (l₁ ++ l₂))
    ∧ (∀ (l₁ l₂ : List TopAttr) (a : TopAttr),
        a.nla_type ≠ .AttrMac → a.nla_type ≠ .AttrStaInfo →
        stationTryFrom (l₁ ++ a :: l₂) = stationTryFrom (l₁ ++ l₂))
    ∧ (∀ (s : Station) (l₁ l₂ : List StaAttr) (n : Nat) (p : List Nat),
        staFold s (l₁ ++ ⟨.StaInfoOther n, p⟩ :: l₂) = staFold s (l₁ ++ l₂))
    ∧ (∀ (l₁ l₂ : List TopAttr) (a : TopAttr), a.nla_type ≠ .AttrBss →
        bssTryFrom (l₁ ++ a :: l₂) = bssTryFrom (l₁ ++ l₂))
    ∧ (∀ (b : Bss) (l₁ l₂ : List (Nlattr Nl80211BssInfo)) (n : Nat) (p : List Nat),
        bssFold b (l₁ ++ ⟨.BssInfoOther n, p⟩ :: l₂) = bssFold b (l₁ ++ l₂)) := by
  refine ⟨?_, ?_, ?_, ?_, ?_⟩
  · intro l₁ l₂ a ha
    show interfaceFold Interface.default _ = interfaceFold Interface.default _
    rw [interfaceFold_append, interfaceFold_append]
    cases h1 : interfaceFold Interface.default l₁ with
    | ok s => simp [interfaceFold, interfaceStep_skip ha]
    | err => simp
    | fatal => simp
  · intro l₁ l₂ a hmac hsta
    simp only [stationTryFrom]
    rw [getAttribute_append_ne l₁ l₂ a _ hmac, getAttribute_append_ne l₁ l₂ a _ hsta]
  · intro s l₁ l₂ n p
    rw [staFold_append, staFold_append]
    cases h1 : staFold s l₁ with
    | ok s1 => simp [staFold, staStep_other]
    | err => simp
    | fatal => simp
  · intro l₁ l₂ a hbss
    simp only [bssTryFrom]
    rw [getAttribute_append_ne l₁ l₂ a _ hbss]
  · intro b l₁ l₂ n p
    rw [bssFold_append, bssFold_append]
    cases h1 : bssFold b l₁ with
    | ok b1 => simp [bssFold, bssStep_other]
    | err => simp
    | fatal => simp

/-- C8 witness: concrete unknown-typed attributes inserted into concrete
trees leave each mapper's result unchanged. -/
theorem claim_C8_witness :
    interfaceTryFrom [⟨.AttrOther 99, [1, 2, 3]⟩, ⟨.AttrIfindex, [3, 0, 0, 0]⟩] =
      interfaceTryFrom [⟨.AttrIfindex, [3, 0, 0, 0]⟩]
    ∧ stationTryFrom [⟨.AttrIfindex, [3, 0, 0, 0]⟩] = stationTryFrom []
    ∧ staFold Station.default [⟨.StaInfoOther 42, [5]⟩] =
      staFold Station.default []
    ∧ bssTryFrom [⟨.AttrMac, [1]⟩] = bssTryFrom []
    ∧ bssFold Bss.default [⟨.BssInfoOther 7, [6]⟩] = bssFold Bss.default [] :=
  ⟨claim_C8_skip_unknown.1 [] [⟨.AttrIfindex, [3, 0, 0, 0]⟩]
      ⟨.AttrOther 99, [1, 2, 3]⟩ (by decide),
   claim_C8_skip_unknown.2.1 [] [] ⟨.AttrIfindex, [3, 0, 0, 0]⟩
      (by decide) (by decide),
   claim_C8_skip_unknown.2.2.1 Station.default [] [] 42 [5],
   claim_C8_skip_unknown.2.2.2.1 [] [] ⟨.AttrMac, [1]⟩ (by decide),
   claim_C8_skip_unknown.2.2.2.2 Bss.default [] [] 7 [6]⟩

end NeliWifi
